import Mathlib

/-!
Verification development for the `ztdb` repository's bar-driven strategy
evaluation engine (`src/strategies/crossover.py`, class `QuickScalpMACD`).

The Python strategy is shallowly embedded: real numbers are modelled as
rationals (`ℚ`), Python `int` as `ℤ`/`ℕ`, and the per-bar `next()` method as
a pure step function from a strategy state and the values it reads on a bar
to a new state together with an optional trade decision.
-/

/-- Strategy parameters, mirroring the `params` dict of `QuickScalpMACD`
(`ema_period`, `macd_fast`, `macd_slow`, `macd_signal`, `rsi_period`,
`rsi_oversold`, `risk_per_trade`, `tp_pct`, `sl_pct`, `max_bars_in_trade`,
`ema_tolerance`). -/
structure Params where
  ema_period : ℕ
  macd_fast : ℕ
  macd_slow : ℕ
  macd_sig : ℕ
  rsi_period : ℕ
  rsi_oversold : ℚ
  risk_per_trade : ℚ
  tp_pct : ℚ
  sl_pct : ℚ
  max_bars_in_trade : ℕ
  ema_tolerance : ℚ
deriving DecidableEq

/-- The defaults of the `params` dict: ema_period=200, macd_fast=12,
macd_slow=26, macd_signal=9, rsi_period=14, rsi_oversold=40,
risk_per_trade=1.0, tp_pct=0.001, sl_pct=0.0010, max_bars_in_trade=50,
ema_tolerance=0.005. -/
def defaultParams : Params :=
  ⟨200, 12, 26, 9, 14, 40, 1, 1/1000, 1/1000, 50, 5/1000⟩

/-- The values `QuickScalpMACD.next` reads on one bar: the close price, the
current EMA / MACD-line / RSI indicator values, the previous bar's RSI, the
`bt.ind.CrossOver` line value (positive = cross up, negative = cross down),
and the broker equity (`self.broker.getvalue()`, read inside `_calc_size`).
`volume` is carried along with the bar but never read by the strategy. -/
structure BarInput where
  price : ℚ
  ema_val : ℚ
  macd_val : ℚ
  rsi_val : ℚ
  prev_rsi : ℚ
  cross : ℤ
  equity : ℚ
  volume : ℚ
deriving DecidableEq

/-- The mutable state of `QuickScalpMACD`: `self.in_trade`,
`self.entry_price` (a float or `None`, hence `Option ℚ`), and
`self.bars_in_trade`. -/
structure StratState where
  in_trade : Bool
  entry_price : Option ℚ
  bars_in_trade : ℕ
deriving DecidableEq

/-- Initial state set in `__init__`: `in_trade = False`,
`entry_price = None`, `bars_in_trade = 0`. -/
def initState : StratState := ⟨false, none, 0⟩

/-- Exit reasons of the `next()` exit chain, in source order: take-profit,
stop-loss, MACD cross down, max bars in trade. -/
inductive ExitReason where
  | takeProfit
  | stopLoss
  | macdCrossDown
  | timeStop
deriving DecidableEq

/-- A trade decision emitted on a bar: `self.buy(size=size)` on entry, or
`self.close()` with an exit reason on exit. -/
inductive Decision where
  | enterLong (size : ℤ)
  | exitTrade (reason : ExitReason)
deriving DecidableEq

/-- Embedding of `QuickScalpMACD._calc_size`:
`risk_cap = equity * risk_per_trade`; `sl_dist = price * sl_pct`;
if `sl_dist <= 0` return 0; `raw_risk_size = risk_cap / sl_dist`;
`max_affordable = floor(equity / price)`;
`size = min(raw_risk_size, max_affordable)`; return `max(1, floor(size))`. -/
def calcSize (equity risk_per_trade price sl_pct : ℚ) : ℤ :=
  if price * sl_pct ≤ 0 then 0
  else
    max 1 ⌊min ((equity * risk_per_trade) / (price * sl_pct))
               ((⌊equity / price⌋ : ℤ) : ℚ)⌋

/-- Embedding of the exit `if/elif` chain of `QuickScalpMACD.next`, with
`tp_price = entry_price * (1 + tp_pct)` and
`sl_price = entry_price * (1 - sl_pct)`:
`price >= tp_price` → take-profit, `elif price <= sl_price` → stop-loss,
`elif cross < 0` → MACD cross down,
`elif bars_in_trade >= max_bars_in_trade` → time-stop, else no exit. -/
def exitCheck (ps : Params) (entry price : ℚ) (cross : ℤ) (bars : ℕ) :
    Option ExitReason :=
  if entry * (1 + ps.tp_pct) ≤ price then some ExitReason.takeProfit
  else if price ≤ entry * (1 - ps.sl_pct) then some ExitReason.stopLoss
  else if cross < 0 then some ExitReason.macdCrossDown
  else if ps.max_bars_in_trade ≤ bars then some ExitReason.timeStop
  else none

/-- Embedding of `buy_condition` in `QuickScalpMACD.next`:
`self.cross > 0` and `macd_val < 0` and
(`rsi_val < rsi_oversold` and `rsi_val > prev_rsi`) and
`price >= ema_val * (1 - ema_tolerance)`. -/
def buyCondition (ps : Params) (b : BarInput) : Bool :=
  decide (0 < b.cross) && decide (b.macd_val < 0) &&
  (decide (b.rsi_val < ps.rsi_oversold) && decide (b.prev_rsi < b.rsi_val)) &&
  decide (b.ema_val * (1 - ps.ema_tolerance) ≤ b.price)

/-- Embedding of one call of `QuickScalpMACD.next`. First
`bars_in_trade` is incremented if `in_trade` else reset to 0; then if not
`in_trade` the entry branch runs (`buy_condition`, then `_calc_size`, with
`size <= 0` suppressing the entry, otherwise `entry_price = price`,
`in_trade = True`, `buy(size)`); otherwise the exit chain runs, and on a
match `close()` is emitted and `in_trade` is set to `False`. Note that the
source never assigns `entry_price = None` on exit: it is left unchanged. -/
def nextBar (ps : Params) (s : StratState) (b : BarInput) :
    StratState × Option Decision :=
  let bars := if s.in_trade then s.bars_in_trade + 1 else 0
  if s.in_trade = false then
    if buyCondition ps b then
      if calcSize b.equity ps.risk_per_trade b.price ps.sl_pct ≤ 0 then
        (⟨false, s.entry_price, bars⟩, none)
      else
        (⟨true, some b.price, bars⟩,
         some (Decision.enterLong
                (calcSize b.equity ps.risk_per_trade b.price ps.sl_pct)))
    else (⟨false, s.entry_price, bars⟩, none)
  else
    match exitCheck ps (s.entry_price.getD 0) b.price b.cross bars with
    | some r => (⟨false, s.entry_price, bars⟩, some (Decision.exitTrade r))
    | none => (⟨true, s.entry_price, bars⟩, none)

/-- Folding `nextBar` over a list of bars, collecting the per-bar optional
decisions (the backtest engine calls `next` once per bar, in order). -/
def runBars (ps : Params) (s : StratState) :
    List BarInput → StratState × List (Option Decision)
  | [] => (s, [])
  | b :: bs =>
    ((runBars ps (nextBar ps s b).1 bs).1,
     (nextBar ps s b).2 :: (runBars ps (nextBar ps s b).1 bs).2)

/-- A bar on which all four entry conditions hold with ample equity:
close 100, EMA 100 (floor 99.5), MACD -1 < 0, RSI 30 < 40 rising from 20,
cross-over line +1, equity 10000. -/
def barEntry : BarInput := ⟨100, 100, -1, 30, 20, 1, 10000, 1000⟩

/-- A bar that triggers the take-profit exit from an entry at 100:
close 101 ≥ 100.1. -/
def barExitTP : BarInput := ⟨101, 100, -1, 50, 50, 0, 10000, 1000⟩

/-- A neutral bar: close 100 triggers neither threshold from an entry at
100, cross-over line 0, and the entry conditions fail (no cross up). -/
def barHold : BarInput := ⟨100, 100, -1, 50, 50, 0, 10000, 1000⟩

/-- A malformed bar in the sense of the spec: non-positive close price. -/
def barMalformed : BarInput := ⟨-1, 100, -1, 30, 20, 0, 10000, 1000⟩

/-- Same as `barEntry` but with equity 50 < price 100, so the affordability
cap `floor(50/100)` is 0. -/
def barLowEquity : BarInput := ⟨100, 100, -1, 30, 20, 1, 50, 1000⟩

/-- A bar is malformed when a price field is non-positive or volume is
negative (the finitely-representable part of the spec's MalformedBarError
condition; the strategy reads only the close price of the bar itself). -/
def malformedBar (b : BarInput) : Prop := b.price ≤ 0 ∨ b.volume < 0

instance (b : BarInput) : Decidable (malformedBar b) := by
  unfold malformedBar; infer_instance

/-- Tri-state crossover signal of the spec's Crossover Detector. -/
inductive CrossState where
  | CROSS_UP
  | CROSS_DOWN
  | NONE
deriving DecidableEq

/-- Modelled from the spec: the Crossover Detector is realised in the source
by `bt.ind.CrossOver(self.macd.macd, self.macd.signal)`, a backtrader library
indicator whose code is not part of this repository. Per the spec contract,
given yesterday's and today's difference `macd_line - macd_signal`, it
reports CROSS_UP if the sign flips from ≤ 0 to > 0, CROSS_DOWN if it flips
from ≥ 0 to < 0, else NONE. -/
def crossOfDiffs (prev cur : ℚ) : CrossState :=
  if prev ≤ 0 ∧ 0 < cur then CrossState.CROSS_UP
  else if 0 ≤ prev ∧ cur < 0 then CrossState.CROSS_DOWN
  else CrossState.NONE

/-- Modelled from the spec: the detector applied along a difference series
starting from a given previous value. -/
def crossSeqFrom (prev : ℚ) : List ℚ → List CrossState
  | [] => []
  | d :: ds => crossOfDiffs prev d :: crossSeqFrom d ds

/-- Modelled from the spec: the detector applied to a whole difference
series; with fewer than two consecutive snapshots it reports NONE, so the
first element always maps to NONE. -/
def crossSeq : List ℚ → List CrossState
  | [] => []
  | d :: ds => CrossState.NONE :: crossSeqFrom d ds

/-- Modelled from the spec: the number of observations after which every
indicator is ready — EMA after `ema_period` bars, MACD after
`macd_slow + macd_signal` bars, RSI after `rsi_period` bars; all ready once
the maximum has elapsed. -/
def warmupBars (ps : Params) : ℕ :=
  max ps.ema_period (max (ps.macd_slow + ps.macd_sig) ps.rsi_period)

/-- Modelled from the spec: backtrader's minimum-period scheduling (the
engine calls the strategy's decision logic only once all indicators are
ready) is library code not in this repository. On the 0-based bar index `t`,
if fewer than `warmupBars` observations have accumulated the engine emits no
decision and leaves the state untouched; otherwise it runs `nextBar`. -/
def engineStep (ps : Params) (t : ℕ) (s : StratState) (b : BarInput) :
    StratState × Option Decision :=
  if t + 1 < warmupBars ps then (s, none) else nextBar ps s b

/-- Modelled from the spec: the engine run over a bar list starting at bar
index `t`, collecting the per-bar optional decisions. -/
def runEngine (ps : Params) (t : ℕ) (s : StratState) :
    List BarInput → StratState × List (Option Decision)
  | [] => (s, [])
  | b :: bs =>
    ((runEngine ps (t+1) (engineStep ps t s b).1 bs).1,
     (engineStep ps t s b).2 :: (runEngine ps (t+1) (engineStep ps t s b).1 bs).2)

/-! Helper lemmas shared by the claim theorems. -/

theorem calcSize_pos (e r p s : ℚ) (h : 0 < p * s) : 1 ≤ calcSize e r p s := by
  unfold calcSize
  rw [if_neg (not_le.mpr h)]
  exact le_max_left 1 _

theorem calcSize_eq_zero_iff (e r p s : ℚ) :
    calcSize e r p s = 0 ↔ p * s ≤ 0 := by
  constructor
  · intro h0
    by_contra hns
    have h1 := calcSize_pos e r p s (lt_of_not_le hns)
    omega
  · intro h
    unfold calcSize
    rw [if_pos h]

theorem inTrade_isSome_step (ps : Params) (s : StratState) (b : BarInput)
    (h : s.in_trade = true → s.entry_price.isSome = true) :
    (nextBar ps s b).1.in_trade = true →
    (nextBar ps s b).1.entry_price.isSome = true := by
  obtain ⟨it, ep, n⟩ := s
  cases it with
  | false =>
    by_cases hb : buyCondition ps b
    · by_cases hsz : calcSize b.equity ps.risk_per_trade b.price ps.sl_pct ≤ 0
      · simp [nextBar, hb, hsz]
      · simp [nextBar, hb, hsz]
    · simp [nextBar, hb]
  | true =>
    have hep := h rfl
    cases hx : exitCheck ps (ep.getD 0) b.price b.cross (n + 1) with
    | none => simp only at hep; simp [nextBar, hx, hep]
    | some r => simp [nextBar, hx]

theorem inTrade_isSome_run (ps : Params) (bars : List BarInput) :
    ∀ s : StratState, (s.in_trade = true → s.entry_price.isSome = true) →
      (runBars ps s bars).1.in_trade = true →
      (runBars ps s bars).1.entry_price.isSome = true := by
  induction bars with
  | nil => intro s h; simpa [runBars] using h
  | cons b bs ih =>
    intro s h
    simp only [runBars]
    exact ih _ (inTrade_isSome_step ps s b h)

theorem runBars_length (ps : Params) :
    ∀ (bars : List BarInput) (s : StratState),
      (runBars ps s bars).2.length = bars.length := by
  intro bars
  induction bars with
  | nil => intro s; simp [runBars]
  | cons b bs ih => intro s; simp [runBars, ih]

theorem exitCheck_timeStop_le (ps : Params) (entry price : ℚ) (cross : ℤ)
    (bars : ℕ)
    (h : exitCheck ps entry price cross bars = some ExitReason.timeStop) :
    ps.max_bars_in_trade ≤ bars := by
  simp only [exitCheck] at h
  split_ifs at h <;> simp_all

theorem runEngine_warmup_none (ps : Params) :
    ∀ (bars : List BarInput) (t i : ℕ) (s : StratState),
      t + i + 1 < warmupBars ps →
      (runEngine ps t s bars).2.getD i none = none := by
  intro bars
  induction bars with
  | nil => intro t i s _; simp [runEngine]
  | cons b bs ih =>
    intro t i s h
    cases i with
    | zero =>
      have hlt : t + 1 < warmupBars ps := by omega
      simp [runEngine, engineStep, hlt]
    | succ j =>
      simp only [runEngine, List.getD_cons_succ]
      exact ih (t + 1) j _ (by omega)

/-! Claim theorems. -/

/-- C1 (amended): while LONG the entry price is always set — entry, the
only FLAT-to-LONG transition, records `entry_price = current close` — but
exits do NOT clear `entry_price` (the source never assigns it back to
`None`), so the LONG-direction of the claimed invariant holds while the
FLAT-direction fails after the first exit. -/
theorem c1_long_entry_price :
    (∀ (ps : Params) (bars : List BarInput),
        (runBars ps initState bars).1.in_trade = true →
        (runBars ps initState bars).1.entry_price.isSome = true) ∧
    (∀ (ps : Params) (ep : Option ℚ) (n : ℕ) (b : BarInput) (sz : ℤ),
        (nextBar ps ⟨false, ep, n⟩ b).2 = some (Decision.enterLong sz) →
        (nextBar ps ⟨false, ep, n⟩ b).1.entry_price = some b.price) := by
  constructor
  · intro ps bars
    exact inTrade_isSome_run ps bars initState (by simp [initState])
  · intro ps ep n b sz h
    by_cases hb : buyCondition ps b
    · by_cases hsz : calcSize b.equity ps.risk_per_trade b.price ps.sl_pct ≤ 0
      · simp [nextBar, hb, hsz] at h
      · simp [nextBar, hb, hsz]
    · simp [nextBar, hb] at h

/-- C1 witness: a concrete one-bar run that enters LONG and has its entry
price set. -/
theorem c1_witness :
    (runBars defaultParams initState [barEntry]).1.in_trade = true ∧
    (runBars defaultParams initState [barEntry]).1.entry_price.isSome = true := by
  have h1 : (runBars defaultParams initState [barEntry]).1.in_trade = true := by
    norm_num [runBars, nextBar, buyCondition, calcSize, defaultParams,
      barEntry, initState, min_def, max_def]
  exact ⟨h1, c1_long_entry_price.1 defaultParams [barEntry] h1⟩

/-- C1 counterexample: after an entry followed by a take-profit exit, the
state is FLAT yet `entry_price` is still `some 100` — the exit did not
clear it, refuting the claimed `LONG ⇔ entry_price set` invariant. -/
theorem c1_counterexample :
    (runBars defaultParams initState [barEntry, barExitTP]).1.in_trade = false ∧
    (runBars defaultParams initState [barEntry, barExitTP]).1.entry_price =
      some 100 := by
  norm_num [runBars, nextBar, buyCondition, calcSize, exitCheck,
    defaultParams, barEntry, barExitTP, initState, min_def, max_def]

/-- C2: at equity=50, risk_fraction=1.0, price=100, stop_fraction=0.001 the
affordability cap `floor(50/100)` is 0 and the capped value
`min(risk_based_size, cap)` is 0, yet `_calc_size` returns
`max(1, floor(0)) = 1`, not the 0 the claim (and the function's own
docstring, "never more than you can actually afford") requires. -/
theorem c2_sizer_overrides_cap :
    (⌊(50 : ℚ) / 100⌋ = 0) ∧
    min ((50 * 1 : ℚ) / (100 * (1/1000))) ((⌊(50 : ℚ) / 100⌋ : ℤ) : ℚ) = 0 ∧
    calcSize 50 1 100 (1/1000) = 1 := by
  norm_num [calcSize, min_def, max_def]

/-- C3: while LONG the decision equals the exit chain's first match, and the
chain evaluates take-profit, then stop-loss, then MACD cross-down, then
time-stop, in that order; in particular a close satisfying both the
take-profit and the stop-loss threshold reports take-profit. -/
theorem c3_exit_priority :
    (∀ (ps : Params) (ep : Option ℚ) (n : ℕ) (b : BarInput),
        (nextBar ps ⟨true, ep, n⟩ b).2 =
          (exitCheck ps (ep.getD 0) b.price b.cross (n + 1)).map
            Decision.exitTrade) ∧
    (∀ (ps : Params) (entry price : ℚ) (cross : ℤ) (bars : ℕ),
        entry * (1 + ps.tp_pct) ≤ price →
        exitCheck ps entry price cross bars = some ExitReason.takeProfit) ∧
    (∀ (ps : Params) (entry price : ℚ) (cross : ℤ) (bars : ℕ),
        price < entry * (1 + ps.tp_pct) →
        price ≤ entry * (1 - ps.sl_pct) →
        exitCheck ps entry price cross bars = some ExitReason.stopLoss) ∧
    (∀ (ps : Params) (entry price : ℚ) (cross : ℤ) (bars : ℕ),
        price < entry * (1 + ps.tp_pct) →
        entry * (1 - ps.sl_pct) < price → cross < 0 →
        exitCheck ps entry price cross bars = some ExitReason.macdCrossDown) ∧
    (∀ (ps : Params) (entry price : ℚ) (cross : ℤ) (bars : ℕ),
        price < entry * (1 + ps.tp_pct) →
        entry * (1 - ps.sl_pct) < price → 0 ≤ cross →
        ps.max_bars_in_trade ≤ bars →
        exitCheck ps entry price cross bars = some ExitReason.timeStop) ∧
    (∀ (ps : Params) (entry price : ℚ) (cross : ℤ) (bars : ℕ),
        entry * (1 + ps.tp_pct) ≤ price →
        price ≤ entry * (1 - ps.sl_pct) →
        exitCheck ps entry price cross bars = some ExitReason.takeProfit) := by
  refine ⟨?_, ?_, ?_, ?_, ?_, ?_⟩
  · intro ps ep n b
    cases hx : exitCheck ps (ep.getD 0) b.price b.cross (n + 1) <;>
      simp [nextBar, hx]
  · intro ps entry price cross bars h
    simp [exitCheck, h]
  · intro ps entry price cross bars h1 h2
    simp [exitCheck, not_le.mpr h1, h2]
  · intro ps entry price cross bars h1 h2 h3
    simp [exitCheck, not_le.mpr h1, not_le.mpr h2, h3]
  · intro ps entry price cross bars h1 h2 h3 h4
    simp [exitCheck, not_le.mpr h1, not_le.mpr h2, not_lt.mpr h3, h4]
  · intro ps entry price cross bars h1 _
    simp [exitCheck, h1]

/-- C3 witness: with the default fractions and a (negative) entry price of
-100, the close -100 satisfies both the take-profit threshold (-100.1) and
the stop-loss threshold (-99.9), and the reported reason is take-profit. -/
theorem c3_witness :
    exitCheck defaultParams (-100) (-100) 0 0 = some ExitReason.takeProfit :=
  c3_exit_priority.2.2.2.2.2 defaultParams (-100) (-100) 0 0
    (by norm_num [defaultParams]) (by norm_num [defaultParams])

/-- C4: when FLAT, an ENTER_LONG is emitted exactly when the four entry
conditions (cross up, MACD below zero, RSI oversold and rising, close at or
above the EMA floor) all hold and the computed size is positive; otherwise
the state stays FLAT with no decision. -/
theorem c4_entry_rule :
    (∀ (ps : Params) (ep : Option ℚ) (n : ℕ) (b : BarInput),
        buyCondition ps b = true →
        0 < calcSize b.equity ps.risk_per_trade b.price ps.sl_pct →
        nextBar ps ⟨false, ep, n⟩ b =
          (⟨true, some b.price, 0⟩,
           some (Decision.enterLong
                  (calcSize b.equity ps.risk_per_trade b.price ps.sl_pct)))) ∧
    (∀ (ps : Params) (ep : Option ℚ) (n : ℕ) (b : BarInput),
        buyCondition ps b = false →
        nextBar ps ⟨false, ep, n⟩ b = (⟨false, ep, 0⟩, none)) ∧
    (∀ (ps : Params) (ep : Option ℚ) (n : ℕ) (b : BarInput),
        calcSize b.equity ps.risk_per_trade b.price ps.sl_pct ≤ 0 →
        nextBar ps ⟨false, ep, n⟩ b = (⟨false, ep, 0⟩, none)) ∧
    (∀ (ps : Params) (b : BarInput),
        buyCondition ps b = true ↔
          (0 < b.cross ∧ b.macd_val < 0 ∧
           (b.rsi_val < ps.rsi_oversold ∧ b.prev_rsi < b.rsi_val) ∧
           b.ema_val * (1 - ps.ema_tolerance) ≤ b.price)) := by
  refine ⟨?_, ?_, ?_, ?_⟩
  · intro ps ep n b hb hsz
    simp [nextBar, hb, not_le.mpr hsz]
  · intro ps ep n b hb
    simp [nextBar, hb]
  · intro ps ep n b hsz
    by_cases hb : buyCondition ps b <;> simp [nextBar, hb, hsz]
  · intro ps b
    simp [buyCondition, and_assoc]

/-- C4 witness: on a concrete bar satisfying all four conditions with
equity 10000, an ENTER_LONG of the computed size is emitted. -/
theorem c4_witness :
    nextBar defaultParams ⟨false, none, 0⟩ barEntry =
      (⟨true, some barEntry.price, 0⟩,
       some (Decision.enterLong
              (calcSize barEntry.equity defaultParams.risk_per_trade
                barEntry.price defaultParams.sl_pct))) :=
  c4_entry_rule.1 defaultParams none 0 barEntry
    (by norm_num [buyCondition, defaultParams, barEntry])
    (by norm_num [calcSize, defaultParams, barEntry, min_def, max_def])

/-- C5: no decision is produced on any bar whose index precedes the
indicators' warm-up completion (spec-modelled: backtrader's minimum-period
scheduling), regardless of the bar values. -/
theorem c5_no_decision_before_warmup :
    ∀ (ps : Params) (bars : List BarInput) (i : ℕ),
      i + 1 < warmupBars ps →
      (runEngine ps 0 initState bars).2.getD i none = none := by
  intro ps bars i h
  exact runEngine_warmup_none ps bars 0 i initState (by omega)

/-- C5 witness: with the default parameters (warm-up 200 bars) the first
bar of a concrete run carries no decision even though it satisfies every
entry condition. -/
theorem c5_witness :
    (runEngine defaultParams 0 initState [barEntry]).2.getD 0 none = none :=
  c5_no_decision_before_warmup defaultParams [barEntry] 0 (by decide)

/-- C6: the crossover detector reports CROSS_UP exactly when the difference
sign flips from ≤ 0 to > 0, CROSS_DOWN exactly when it flips from ≥ 0 to
< 0, NONE otherwise (and always NONE with fewer than two snapshots), and on
the difference sequence [-0.5, -0.1, +0.2] it reports NONE, NONE, CROSS_UP. -/
theorem c6_cross_contract :
    (∀ p c : ℚ, crossOfDiffs p c = CrossState.CROSS_UP ↔ (p ≤ 0 ∧ 0 < c)) ∧
    (∀ p c : ℚ, crossOfDiffs p c = CrossState.CROSS_DOWN ↔ (0 ≤ p ∧ c < 0)) ∧
    (∀ p c : ℚ, crossOfDiffs p c = CrossState.NONE ↔
        (¬(p ≤ 0 ∧ 0 < c) ∧ ¬(0 ≤ p ∧ c < 0))) ∧
    crossSeq [-(1/2), -(1/10), 1/5] =
      [CrossState.NONE, CrossState.NONE, CrossState.CROSS_UP] := by
  refine ⟨?_, ?_, ?_, ?_⟩
  · intro p c
    unfold crossOfDiffs
    split_ifs with h1 h2 <;> simp_all
  · intro p c
    unfold crossOfDiffs
    split_ifs with h1 h2 <;> simp_all
    intro hp
    linarith [h1.2]
  · intro p c
    unfold crossOfDiffs
    split_ifs with h1 h2 <;> simp_all
  · norm_num [crossSeq, crossSeqFrom, crossOfDiffs]

/-- C7: `bars_in_trade` is 0 on the bar of entry and increments by exactly
1 per bar while LONG; given that no higher-priority exit condition matches,
the time-stop fires on a bar exactly when the incremented counter has
reached `max_bars_in_trade`, and it can never fire while the counter is
still below the limit. -/
theorem c7_bars_held :
    (∀ (ps : Params) (ep : Option ℚ) (n : ℕ) (b : BarInput) (sz : ℤ),
        (nextBar ps ⟨false, ep, n⟩ b).2 = some (Decision.enterLong sz) →
        (nextBar ps ⟨false, ep, n⟩ b).1.bars_in_trade = 0) ∧
    (∀ (ps : Params) (ep : Option ℚ) (n : ℕ) (b : BarInput),
        (nextBar ps ⟨true, ep, n⟩ b).1.bars_in_trade = n + 1) ∧
    (∀ (ps : Params) (ep : Option ℚ) (n : ℕ) (b : BarInput),
        b.price < (ep.getD 0) * (1 + ps.tp_pct) →
        (ep.getD 0) * (1 - ps.sl_pct) < b.price →
        0 ≤ b.cross →
        ((nextBar ps ⟨true, ep, n⟩ b).2 =
            some (Decision.exitTrade ExitReason.timeStop) ↔
          ps.max_bars_in_trade ≤ n + 1)) ∧
    (∀ (ps : Params) (ep : Option ℚ) (n : ℕ) (b : BarInput),
        n + 1 < ps.max_bars_in_trade →
        (nextBar ps ⟨true, ep, n⟩ b).2 ≠
          some (Decision.exitTrade ExitReason.timeStop)) := by
  refine ⟨?_, ?_, ?_, ?_⟩
  · intro ps ep n b sz h
    by_cases hb : buyCondition ps b
    · by_cases hsz : calcSize b.equity ps.risk_per_trade b.price ps.sl_pct ≤ 0
      · simp [nextBar, hb, hsz] at h
      · simp [nextBar, hb, hsz]
    · simp [nextBar, hb] at h
  · intro ps ep n b
    cases hx : exitCheck ps (ep.getD 0) b.price b.cross (n + 1) <;>
      simp [nextBar, hx]
  · intro ps ep n b h1 h2 h3
    have hx : exitCheck ps (ep.getD 0) b.price b.cross (n + 1) =
        if ps.max_bars_in_trade ≤ n + 1 then some ExitReason.timeStop
        else none := by
      simp [exitCheck, not_le.mpr h1, not_le.mpr h2, not_lt.mpr h3]
    by_cases hm : ps.max_bars_in_trade ≤ n + 1 <;>
      simp [nextBar, hx, hm]
  · intro ps ep n b h
    cases hx : exitCheck ps (ep.getD 0) b.price b.cross (n + 1) with
    | none => simp [nextBar, hx]
    | some r =>
      have hr : r ≠ ExitReason.timeStop := by
        intro hr
        subst hr
        have hle := exitCheck_timeStop_le ps (ep.getD 0) b.price b.cross
          (n + 1) hx
        omega
      simp [nextBar, hx, hr]

/-- C7 witness: holding LONG with entry 100 on a flat close of 100 with
cross 0, at counter 49 with the default limit 50 the time-stop condition
becomes an equivalence that holds on both sides. -/
theorem c7_witness :
    ((nextBar defaultParams ⟨true, some 100, 49⟩ barHold).2 =
        some (Decision.exitTrade ExitReason.timeStop) ↔
      defaultParams.max_bars_in_trade ≤ 49 + 1) :=
  c7_bars_held.2.2.1 defaultParams (some 100) 49 barHold
    (by norm_num [defaultParams, barHold])
    (by norm_num [defaultParams, barHold])
    (by norm_num [barHold])

/-- C8 (amended): the engine performs no bar validation at all — a bar with
a non-positive price (or negative volume) is processed by the ordinary
decision logic like any other bar and the run continues with the remaining
bars; no error is raised and processing never halts. -/
theorem c8_no_validation :
    ∀ (ps : Params) (s : StratState) (b : BarInput) (bs : List BarInput),
      malformedBar b →
      (runBars ps s (b :: bs)).2 =
        (nextBar ps s b).2 :: (runBars ps (nextBar ps s b).1 bs).2 ∧
      (runBars ps s (b :: bs)).2.length = bs.length + 1 := by
  intro ps s b bs _
  refine ⟨rfl, ?_⟩
  simp [runBars, runBars_length]

/-- C8 witness: the concrete malformed bar (close -1) is run without any
rejection. -/
theorem c8_witness :
    (runBars defaultParams initState (barMalformed :: [])).2 =
      (nextBar defaultParams initState barMalformed).2 ::
        (runBars defaultParams
          (nextBar defaultParams initState barMalformed).1 []).2 ∧
    (runBars defaultParams initState (barMalformed :: [])).2.length =
      List.length ([] : List BarInput) + 1 :=
  c8_no_validation defaultParams initState barMalformed []
    (Or.inl (by norm_num [barMalformed]))

/-- C8 counterexample: a bar with close -1 is malformed per the claim, yet
the engine neither rejects it nor halts: the run continues and even enters
LONG on the following bar, refuting the claimed fatal-error behaviour. -/
theorem c8_counterexample :
    malformedBar barMalformed ∧
    (runBars defaultParams initState [barMalformed, barEntry]).2 =
      [none, some (Decision.enterLong 100)] := by
  constructor
  · exact Or.inl (by norm_num [barMalformed])
  · norm_num [runBars, nextBar, buyCondition, calcSize, exitCheck,
      defaultParams, barMalformed, barEntry, initState, min_def, max_def]

/-- C9: for equity=10000, risk_fraction=1.0, price=100,
stop_loss_fraction=0.001 the stop distance is 0.1, the risk-based size is
100000, the affordability cap is floor(10000/100)=100, and `_calc_size`
returns 100. -/
theorem c9_sizing_boundary :
    (100 : ℚ) * (1/1000) = 1/10 ∧
    (10000 : ℚ) * 1 / (1/10) = 100000 ∧
    (⌊(10000 : ℚ) / 100⌋ = (100 : ℤ)) ∧
    calcSize 10000 1 100 (1/1000) = 100 := by
  norm_num [calcSize, min_def, max_def]

/-- C10: whenever the stop distance `price * stop_fraction` is positive the
sizer returns at least 1 — the affordability cap can never push the result
below 1 — and it returns 0 exactly when the stop distance is ≤ 0; hence on
a bar with equity 50 and price 100 an ENTER_LONG of size 1 is emitted even
though one unit costs more than the whole equity. -/
theorem c10_sizer_at_least_one :
    (∀ e r p s : ℚ, 0 < p * s → 1 ≤ calcSize e r p s) ∧
    (∀ e r p s : ℚ, calcSize e r p s = 0 ↔ p * s ≤ 0) ∧
    (nextBar defaultParams initState barLowEquity).2 =
      some (Decision.enterLong 1) := by
  refine ⟨?_, ?_, ?_⟩
  · intro e r p s h
    exact calcSize_pos e r p s h
  · intro e r p s
    exact calcSize_eq_zero_iff e r p s
  · norm_num [nextBar, buyCondition, calcSize, defaultParams, barLowEquity,
      initState, min_def, max_def]

/-- C10 witness: at equity 50, price 100, stop fraction 0.001 the stop
distance is positive and the sizer returns at least 1. -/
theorem c10_witness :
    (0 : ℚ) < 100 * (1/1000) ∧ 1 ≤ calcSize 50 1 100 (1/1000) :=
  ⟨by norm_num, c10_sizer_at_least_one.1 50 1 100 (1/1000) (by norm_num)⟩
